import Mathlib

/-!
Verification of the upload orchestration layer of the irys JS SDK
(`src/common/upload.ts`) and of the Aptos transaction validator
(`src/node/currencies/aptos.ts`), via a shallow embedding in Lean.

Modelling conventions:
* byte buffers are `List Nat` (each element `< 256` where it matters);
* JS exceptions are `Except String` values, an `Error` being represented by
  its message string;
* the `async-retry` collaborator (`retry(fn, { retries: 3, ... })`) is
  modelled by its promise-settlement semantics: the operation function is
  invoked with an attempt counter, `bail(e)` settles the promise with a
  rejection carrying `e` itself, and exhaustion of the 3 retries (4 attempts
  in total) settles it with node-retry's `mainError()` (the most frequent
  error message, ties broken by recency);
* the `@supercharge/promise-pool` collaborator is modelled by its sequential
  semantics: items are started in input order; a task failure runs the
  configured error handler, and an error rethrown from the error handler
  stops the pool (no further item is started) and makes the promise returned
  by `.process` reject with that error;
* timing (backoff delays, real concurrency) is not modelled: the claims under
  study are about attempt counts, recorded errors/results and scheduling,
  none of which depend on wall-clock interleaving in the sequential model.
-/

namespace Irys

/-- The message of the fatal error thrown on HTTP status 402 and recognised by
name in `concurrentUploader` (both in the retry `bail` test and in the pool's
error handler): `"Not enough funds to send data"`. -/
def fundsMsg : String := "Not enough funds to send data"

/-! ## node-retry `mainError()`

`async-retry` rejects with `operation.mainError()` when the allotted retries
are exhausted.  node-retry computes it by scanning the recorded errors in
order, counting occurrences of each message, and keeping the message with the
highest count so far, later entries winning ties (`count >= mainErrorCount`).
Errors being modelled as their messages, the state is the list of already
scanned messages, the current best and its count. -/

def mainErrorGo : List String → List String → Option String → Nat → Option String
  | [], _, best, _ => best
  | e :: rest, seen, best, bestCount =>
    let c := seen.count e + 1
    if bestCount ≤ c then mainErrorGo rest (seen ++ [e]) (some e) c
    else mainErrorGo rest (seen ++ [e]) best bestCount

/-- node-retry's `mainError()` over the list of errors recorded by the
successive failed attempts. -/
def mainError (errs : List String) : Option String := mainErrorGo errs [] none 0

/-! ## `async-retry` with the options used by `concurrentUploader`

`retry(fn, { retries: 3, minTimeout: 1000, maxTimeout: 10_000 })`:
`left` counts the retries still allowed after the current attempt, `n` is the
0-based attempt counter, `acc` the errors recorded so far.  The operation in
`upload.ts` calls `bail(e)` exactly when `e.message === fundsMsg`, which
settles the promise with `e` at once; any other failure is rethrown to the
retrier. The returned `Nat` is the number of attempts consumed when the
promise settles. -/

def retryGo {V : Type} (f : Nat → Except String V) : Nat → Nat → List String → Except String V × Nat
  | 0, n, acc =>
    (match f n with
     | .ok r => (.ok r, n + 1)
     | .error e =>
       if e == fundsMsg then (.error e, n + 1)
       else (.error ((mainError (acc ++ [e])).getD e), n + 1))
  | left + 1, n, acc =>
    (match f n with
     | .ok r => (.ok r, n + 1)
     | .error e =>
       if e == fundsMsg then (.error e, n + 1)
       else retryGo f left (n + 1) (acc ++ [e]))

/-- `retry` as called by `concurrentUploader`: `retries: 3`, i.e. at most
3 retries after the first attempt (4 attempts in total). -/
def retryRun {V : Type} (f : Nat → Except String V) : Except String V × Nat :=
  retryGo f 3 0 []

/-! ## The Concurrent Upload Scheduler (`concurrentUploader`) -/

/-- The default per-item success shape built inside the retry operation:
`{ item, res, i }` (the original item, the upload result, the input index). -/
structure ItemOutcome (α R : Type) where
  item : α
  res : R
  i : Nat

/-- One input of a batch: the item value together with the behaviour of
`processItem` on it, as a function from the 0-based attempt number to the
outcome of that attempt (the network being the only source of
non-determinism, it is supplied as an oracle). -/
structure SchedItem (α R : Type) where
  val : α
  beh : Nat → Except String R

/-- The operation passed to `retry` for one item: run `processItem`, then on
success build `{item, res, i}` and feed it to the result processor (`rp` is
the caller-supplied `resultProcessor`, or the identity when none was given,
matching the `opts?.resultProcessor ? ... : {item, res, i}` ternary).
The progress `logFn` call is elided: the default is a no-op and no claim
under study concerns it. -/
def schedTaskFn {α R β : Type} (rp : ItemOutcome α R → β) (it : SchedItem α R) (i : Nat) :
    Nat → Except String β :=
  fun n => (it.beh n).map (fun res => rp ⟨it.val, res, i⟩)

/-- What a scheduler run yields: `outcome` is the settlement of the promise
returned by `concurrentUploader` (`.ok (errors, results)` when it returns its
`{errors, results}` object, `.error e` when it rejects), and `attempts` the
number of attempts consumed by each item that was actually started, in start
order.  The `results` entries are `Unit`: the `.process` callback in
`upload.ts` merely `await`s the retry and never returns its value, so the
pool records `undefined` for every successful item. -/
structure BatchTrace where
  outcome : Except String (List String × List Unit)
  attempts : List Nat

/-- Sequential semantics of the `PromisePool` run inside `concurrentUploader`:
items are started in order; on task success the pool records the callback's
(`undefined`) return value; on failure the error handler pushes the error and,
when the message is `fundsMsg`, rethrows it, which stops the pool and makes
`.process` reject with it (the locally accumulated `errors`/`results` are then
discarded, because the `return { errors, results }` line is never reached). -/
def runSchedGo {α R β : Type} (rp : ItemOutcome α R → β) :
    List (SchedItem α R) → Nat → List String → List Unit → BatchTrace
  | [], _, errs, ress => ⟨.ok (errs, ress), []⟩
  | it :: rest, i, errs, ress =>
    match retryRun (schedTaskFn rp it i) with
    | (.ok _, att) =>
      let t := runSchedGo rp rest (i + 1) errs (ress ++ [()])
      ⟨t.outcome, att :: t.attempts⟩
    | (.error e, att) =>
      if e == fundsMsg then ⟨.error e, [att]⟩
      else
        let t := runSchedGo rp rest (i + 1) (errs ++ [e]) ress
        ⟨t.outcome, att :: t.attempts⟩

/-- `concurrentUploader(data, opts)` with result processor `rp` (identity when
none is supplied) over the given batch. -/
def concurrentUploaderModel {α R β : Type} (rp : ItemOutcome α R → β)
    (items : List (SchedItem α R)) : BatchTrace :=
  runSchedGo rp items 0 [] []

/-! ## The Single-Item Uploader (`uploadTransaction`)

The payload is a `DataItem | Readable | Buffer`; `DataItem.isDataItem` is the
runtime capability test, and only a `DataItem` exposes `getRaw()` (for the
routing size test) and `.id`. -/

/-- The chunking threshold `CHUNKING_THRESHOLD = 50_000_000` from
`upload.ts`. -/
def CHUNKING_THRESHOLD : Nat := 50000000

/-- The payload of `uploadTransaction`/`processItem`: either a pre-built
signed `DataItem` (raw bytes plus derived id), or any other value
(`Readable`/`Buffer`), for which `DataItem.isDataItem` is `false`. -/
inductive TxPayload where
  | dataItem (raw : List Nat) (id : String)
  | nonItem

/-- `DataItem.isDataItem(transaction)`. -/
def isDataItemB : TxPayload → Bool
  | .dataItem _ _ => true
  | .nonItem => false

/-- `transaction.getRaw().length` (only consulted when the payload is a
`DataItem`, thanks to `&&` short-circuiting in the source). -/
def rawLength : TxPayload → Nat
  | .dataItem raw _ => raw.length
  | .nonItem => 0

/-- `transaction.getRaw()` for a `DataItem` (the direct path only posts raw
item bytes; non-items never reach it). -/
def rawOf : TxPayload → List Nat
  | .dataItem raw _ => raw
  | .nonItem => []

/-- The routing test of `uploadTransaction`:
`forceUseChunking || (isDataItem && raw.length >= CHUNKING_THRESHOLD) || !isDataItem`. -/
def usesChunkedPath (force : Bool) (t : TxPayload) : Bool :=
  force || (isDataItemB t && decide (CHUNKING_THRESHOLD ≤ rawLength t)) || !isDataItemB t

/-! ### Header construction on the direct path

JS object headers are modelled as association lists in insertion order;
`setHeader` is JS property assignment (overwrite in place, or append), and
`spreadHeaders base conf` is the object spread `{ ...base, ...conf }`. -/

def setHeader (hs : List (String × String)) (k v : String) : List (String × String) :=
  if hs.any (fun p => p.1 == k) then hs.map (fun p => if p.1 == k then (k, v) else p)
  else hs ++ [(k, v)]

def spreadHeaders (base conf : List (String × String)) : List (String × String) :=
  conf.foldl (fun acc p => setHeader acc p.1 p.2) base

/-- Property lookup on a headers object. -/
def getHeader (hs : List (String × String)) (k : String) : Option String :=
  (hs.find? (fun p => p.1 == k)).map (fun p => p.2)

/-- The headers of the direct POST:
`{ "Content-Type": "application/octet-stream", ...confHeaders }`, then
`headers["x-proof-type"] = "receipt"` exactly when
`opts?.getReceiptSignature === true`. -/
def mkDirectHeaders (conf : List (String × String)) (getReceipt : Bool) : List (String × String) :=
  let headers := spreadHeaders [("Content-Type", "application/octet-stream")] conf
  if getReceipt then setHeader headers "x-proof-type" "receipt" else headers

/-- An HTTP POST issued by `api.post`. -/
structure HttpPost where
  url : String
  body : List Nat
  headers : List (String × String)

/-- The relevant parts of `api.getConfig()`. -/
structure ApiConfig where
  protocol : String
  host : String
  port : Nat
  headers : List (String × String)

/-- The endpoint `${protocol}://${host}:${port}/tx/${currency}`. -/
def txEndpointUrl (cfg : ApiConfig) (currency : String) : String :=
  cfg.protocol ++ "://" ++ cfg.host ++ ":" ++ toString cfg.port ++ "/tx/" ++ currency

/-- The direct HTTP submissions performed by one `uploadTransaction` call:
none when the payload is routed to the chunked collaborator, and exactly the
one `api.post` of the raw item bytes otherwise. -/
def uploadTransactionPosts (force : Bool) (cfg : ApiConfig) (currency : String)
    (t : TxPayload) (getReceipt : Bool) : List HttpPost :=
  if usesChunkedPath force t then []
  else [⟨txEndpointUrl cfg currency, rawOf t, mkDirectHeaders cfg.headers getReceipt⟩]

/-! ### Response classification on the direct path -/

/-- The `res.data` field after the direct exchange: either the synthesized
`{ id: transaction.id }` (201, no receipt requested) or the server body as
parsed by the HTTP layer. -/
inductive ResData (β : Type) where
  | fresh (id : String)
  | raw (body : β)

/-- The value of a successful direct `uploadTransaction` call:
the final `res.data`, and whether the `verify()` capability was attached
(`if (opts?.getReceiptSignature) res.data.verify = ...`). -/
structure DirectResult (β : Type) where
  data : ResData β
  verifyAttached : Bool

/-- The direct path of `uploadTransaction` after the POST returned, as a
function of the response (`status`, `statusText`, parsed `body`), the item id
and the receipt option.  `toStr` is JS string coercion of the body
(`res.data as any as string`).  Mirrors the source order: the 201 block
first (`throw new Error(res.data)` when a receipt was requested, otherwise
`res.data = { id }`), then the status `switch` (402, then any status ≥ 400),
then the `verify` attachment. -/
def uploadTransactionDirect {β : Type} (status : Nat) (statusText : String) (body : β)
    (toStr : β → String) (txId : String) (getReceipt : Bool) :
    Except String (DirectResult β) :=
  match (if status == 201 then
          (if getReceipt then Except.error (toStr body)
           else Except.ok (ResData.fresh txId))
         else Except.ok (ResData.raw body) : Except String (ResData β)) with
  | .error e => .error e
  | .ok data =>
    if status == 402 then .error fundsMsg
    else if decide (400 ≤ status) then
      .error ("whilst uploading Irys transaction: " ++ toString status ++ " " ++ statusText)
    else .ok ⟨data, getReceipt⟩

/-! ## `uploadData` size dispatch -/

/-- The input of `uploadData`: a string (converted to its UTF-8 bytes by
`Buffer.from`), a `Buffer`, or a `Readable` stream. -/
inductive UploadDataInput where
  | str (utf8 : List Nat)
  | buffer (bytes : List Nat)
  | readable

/-- Which collaborator `uploadData` hands the payload to. -/
inductive UploadDataPath where
  | signAndUpload
  | chunked
deriving DecidableEq

/-- The dispatch of `uploadData`: a string becomes a `Buffer`; a `Buffer`
whose `length <= CHUNKING_THRESHOLD` is wrapped into a fresh signed
`DataItem` and given to `uploadTransaction`; everything else goes to
`chunkedUploader.uploadData`. -/
def uploadDataRoute : UploadDataInput → UploadDataPath
  | .str s => if s.length ≤ CHUNKING_THRESHOLD then .signAndUpload else .chunked
  | .buffer b => if b.length ≤ CHUNKING_THRESHOLD then .signAndUpload else .chunked
  | .readable => .chunked

/-! ## The Manifest Generator (`generateManifest`) -/

/-- The manifest object: `paths` maps each logical path to the entry
`{ id }`, kept here as the id string; `index` is `{ path }` when present. -/
structure Manifest where
  manifest : String
  version : String
  paths : List (String × String)
  index : Option String

/-- `generateManifest({ items, indexFile })`.  `items` is the `Map`'s
entries in iteration (insertion) order.  `if (indexFile)` is JS truthiness:
an absent OR empty-string index file skips the membership check and leaves
`index` unset.  A present, non-empty `indexFile` missing from the map keys
throws `Unable to access item: ...`. -/
def generateManifest (items : List (String × String)) (indexFile : Option String) :
    Except String Manifest :=
  match indexFile with
  | some f =>
    if f = "" then .ok ⟨"arweave/paths", "0.1.0", items, none⟩
    else if items.any (fun p => p.1 == f) then .ok ⟨"arweave/paths", "0.1.0", items, some f⟩
    else .error ("Unable to access item: " ++ f)
  | none => .ok ⟨"arweave/paths", "0.1.0", items, none⟩

/-! ## `uploadMany`: the ephemeral address

`uploadMany` computes
`base64url(Buffer.from(await hash(base64url.toBuffer(base64url(publicKey)))))`.
`base64url` (npm) encodes a byte buffer to the unpadded URL-safe base64
alphabet and `base64url.toBuffer` decodes such a string back to bytes. -/

/-- The URL-safe base64 alphabet. -/
def b64Alphabet : List Char :=
  "ABCDEFGHIJKLMNOPQRSTUVWXYZabcdefghijklmnopqrstuvwxyz0123456789-_".toList

/-- Value (0..63) to alphabet character. -/
def b64Char (n : Nat) : Char := b64Alphabet.getD n '?'

/-- Alphabet character back to its value. -/
def b64CharVal (c : Char) : Nat := b64Alphabet.findIdx (fun a => a == c)

/-- Bytes to base64 6-bit groups (unpadded: 1 trailing byte yields 2 groups,
2 trailing bytes yield 3). -/
def toSextets : List Nat → List Nat
  | [] => []
  | [a] => [a / 4, a % 4 * 16]
  | [a, b] => [a / 4, a % 4 * 16 + b / 16, b % 16 * 4]
  | a :: b :: c :: rest =>
    a / 4 :: (a % 4 * 16 + b / 16) :: (b % 16 * 4 + c / 64) :: c % 64 :: toSextets rest

/-- base64 6-bit groups back to bytes (a single leftover group carries no
full byte and decodes to nothing). -/
def fromSextets : List Nat → List Nat
  | [] => []
  | [_] => []
  | [x, y] => [x * 4 + y / 16]
  | [x, y, z] => [x * 4 + y / 16, y % 16 * 16 + z / 4]
  | x :: y :: z :: w :: rest =>
    (x * 4 + y / 16) :: (y % 16 * 16 + z / 4) :: (z % 4 * 64 + w) :: fromSextets rest

/-- `base64url(buffer)`: unpadded URL-safe base64 of a byte buffer. -/
def base64urlEncode (l : List Nat) : String := String.mk ((toSextets l).map b64Char)

/-- `base64url.toBuffer(string)`: decode an unpadded URL-safe base64 string. -/
def base64urlToBuffer (s : String) : List Nat := fromSextets (s.toList.map b64CharVal)

/-- The ephemeral address computed by `uploadMany`, as a function of the
digest collaborator (`getCryptoDriver().hash`, SHA-256, modelled abstractly)
and of the ephemeral signer's public key bytes. -/
def ephemeralAddress (hash : List Nat → List Nat) (publicKey : List Nat) : String :=
  base64urlEncode (hash (base64urlToBuffer (base64urlEncode publicKey)))

/-- The extra fields `uploadMany` attaches to the upload result:
`{ ...res, txs: bundle.getIds(), ephemeralKey, ephemeralAddress }` (the key
itself is kept outside the model; `res` is the `uploadTransaction` result). -/
structure UploadManyResult (R : Type) where
  res : R
  txs : List String
  ephemeralAddress : String

/-- Assembly of the `uploadMany` return value from the upload result, the
bundle member ids and the ephemeral public key. -/
def uploadManyModel {R : Type} (hash : List Nat → List Nat) (publicKey : List Nat)
    (bundleIds : List String) (uploadRes : R) : UploadManyResult R :=
  ⟨uploadRes, bundleIds, ephemeralAddress hash publicKey⟩

/-! ## Aptos `getTx` (`src/node/currencies/aptos.ts`) -/

/-- The entry-function payload of a fetched Aptos user transaction. -/
structure EntryFunctionPayload where
  function : String
  type_arguments : List String
  arguments : List String

/-- The fields of the fetched transaction consulted by `getTx`.  `txnType`
is the source's `tx.type` (`type` is a Lean keyword). -/
structure UserTransaction where
  payload : EntryFunctionPayload
  vm_status : String
  txnType : String
  sender : String

/-- The `Tx` record built by `getTx`.  `sender` is the source's `from` and
`recipient` the source's `to` (both Lean keywords); `recipient` is
`payload.arguments[0]` and `amount` the raw `payload.arguments[1]` (fed to
`new BigNumber(...)` in the source), both `Option` because a JS index past
the end yields `undefined`. -/
structure Tx where
  recipient : Option String
  sender : String
  amount : Option String
  pending : Bool
  confirmed : Bool

/-- `AptosConfig.getTx` applied to the transaction returned by
`waitForTransactionWithResult`: validates the payload function, its first
type argument and the VM status, else throws; `pending` tests
`tx.type === "pending_transaction"` and `confirmed` is its negation. -/
def getTx (txId : String) (tx : UserTransaction) : Except String Tx :=
  if tx.payload.function = "0x1::coin::transfer" ∧
     tx.payload.type_arguments.head? = some "0x1::aptos_coin::AptosCoin" ∧
     tx.vm_status = "Executed successfully" then
    let isPending : Bool := tx.txnType == "pending_transaction"
    .ok ⟨tx.payload.arguments.head?, tx.sender, tx.payload.arguments[1]?, isPending, !isPending⟩
  else .error ("Aptos tx " ++ txId ++ " failed validation")

/-! # Theorems -/

/-- Claim C9: a `Buffer` payload whose length is exactly the 50,000,000-byte
chunking threshold takes `uploadData`'s build-and-sign path (the size test is
`length <= CHUNKING_THRESHOLD`, not a strict inequality), not the chunked
collaborator. -/
theorem uploadData_at_threshold (b : List Nat) (h : b.length = CHUNKING_THRESHOLD) :
    uploadDataRoute (.buffer b) = .signAndUpload := by
  simp [uploadDataRoute, h]

/-- Witness for C9: a concrete buffer of exactly 50,000,000 bytes. -/
theorem uploadData_at_threshold_witness :
    uploadDataRoute (.buffer (List.replicate CHUNKING_THRESHOLD 0)) = .signAndUpload :=
  uploadData_at_threshold _ (by simp)

/-- Claim C10: `getTx` returns a `Tx` value precisely when the fetched
transaction's payload function is `0x1::coin::transfer`, its first type
argument is `0x1::aptos_coin::AptosCoin` and its `vm_status` is
`Executed successfully` (it throws otherwise), and every returned `Tx` has
`confirmed = !pending`. -/
theorem getTx_spec (txId : String) (tx : UserTransaction) :
    ((∃ t, getTx txId tx = .ok t) ↔
      (tx.payload.function = "0x1::coin::transfer" ∧
       tx.payload.type_arguments.head? = some "0x1::aptos_coin::AptosCoin" ∧
       tx.vm_status = "Executed successfully"))
    ∧ (∀ t, getTx txId tx = .ok t → t.confirmed = !t.pending) := by
  constructor
  · constructor
    · rintro ⟨t, ht⟩
      by_contra hc
      simp only [getTx, if_neg hc] at ht
      cases ht
    · intro hc
      unfold getTx
      rw [if_pos hc]
      exact ⟨_, rfl⟩
  · intro t ht
    unfold getTx at ht
    split at ht
    · cases ht
      rfl
    · cases ht

/-- A concrete, valid fetched Aptos transaction used by the C10 witness. -/
def aptosTx0 : UserTransaction :=
  ⟨⟨"0x1::coin::transfer", ["0x1::aptos_coin::AptosCoin"], ["0x9", "100"]⟩,
   "Executed successfully", "user_transaction", "0x5"⟩

/-- Witness for C10 at a concrete transaction. -/
theorem getTx_spec_witness :
    (∃ t, getTx "0xabc" aptosTx0 = .ok t) ∧
      (∀ t, getTx "0xabc" aptosTx0 = .ok t → t.confirmed = !t.pending) :=
  ⟨(getTx_spec "0xabc" aptosTx0).1.mpr ⟨rfl, rfl, rfl⟩, (getTx_spec "0xabc" aptosTx0).2⟩

/-- Counterexample for claim C8: the index path `""` is supplied and absent
from the mapping keys, yet `generateManifest` does not fail — JS truthiness
makes `if (indexFile)` skip the membership check for the empty string, and a
manifest without an index is returned. -/
theorem generateManifest_emptyIndex_cex :
    generateManifest [("a", "id1")] (some "") =
      .ok ⟨"arweave/paths", "0.1.0", [("a", "id1")], none⟩
    ∧ ¬∃ e, generateManifest [("a", "id1")] (some "") = .error e := by
  refine ⟨rfl, ?_⟩
  rintro ⟨e, he⟩
  simp [generateManifest] at he

/-- Claim C8 (amended): for a supplied, non-empty index path absent from the
mapping keys, `generateManifest` fails with `Unable to access item: ...` and
no manifest is returned; otherwise it returns
`{manifest: "arweave/paths", version: "0.1.0", paths, index?}`, the `index`
entry being present exactly when a non-empty index path that is a mapping key
was supplied (an empty-string index path is ignored by JS truthiness), so any
index path in the result is always a key of `paths`. -/
theorem generateManifest_spec (items : List (String × String)) (f : String) :
    (f ≠ "" → items.any (fun p => p.1 == f) = false →
      generateManifest items (some f) = .error ("Unable to access item: " ++ f))
    ∧ (f ≠ "" → items.any (fun p => p.1 == f) = true →
      generateManifest items (some f) = .ok ⟨"arweave/paths", "0.1.0", items, some f⟩)
    ∧ generateManifest items none = .ok ⟨"arweave/paths", "0.1.0", items, none⟩
    ∧ generateManifest items (some "") = .ok ⟨"arweave/paths", "0.1.0", items, none⟩
    ∧ (∀ g m, generateManifest items (some g) = .ok m → ∀ p, m.index = some p →
        m.paths.any (fun q => q.1 == p) = true) := by
  refine ⟨?_, ?_, rfl, by simp [generateManifest], ?_⟩
  · intro hne habs
    simp [generateManifest, hne, habs]
  · intro hne hmem
    simp [generateManifest, hne, hmem]
  · intro g m hm p hp
    by_cases hg : g = ""
    · subst hg
      simp only [generateManifest, if_pos rfl] at hm
      injection hm with hm2
      subst hm2
      cases hp
    · by_cases hmem : (items.any fun q => q.1 == g) = true
      · simp only [generateManifest, if_neg hg, if_pos hmem] at hm
        injection hm with hm2
        subst hm2
        injection hp with hp2
        subst hp2
        exact hmem
      · simp only [generateManifest, if_neg hg, if_neg hmem] at hm
        exact Except.noConfusion hm

/-- Witness for C8 at concrete inputs: a missing non-empty index path fails,
a present one is returned as the index. -/
theorem generateManifest_spec_witness :
    generateManifest [("a", "id1")] (some "missing") =
      .error ("Unable to access item: " ++ "missing")
    ∧ generateManifest [("a", "id1"), ("b", "id2")] (some "a") =
      .ok ⟨"arweave/paths", "0.1.0", [("a", "id1"), ("b", "id2")], some "a"⟩ :=
  ⟨(generateManifest_spec [("a", "id1")] "missing").1 (by decide) (by decide),
   (generateManifest_spec [("a", "id1"), ("b", "id2")] "a").2.1 (by decide) (by decide)⟩

/-- Claim C6: on the direct path, status 402 raises the `InsufficientFunds`
condition (`"Not enough funds to send data"`); any other status ≥ 400 raises
the rejection error carrying the status code and status text; status 201 with
no receipt requested succeeds with `{ id: transaction.id }`, the server body
being ignored for the id. -/
theorem uploadTransaction_statusClassification {β : Type} (status : Nat) (statusText : String)
    (body : β) (toStr : β → String) (txId : String) (getReceipt : Bool) :
    (status = 402 →
      uploadTransactionDirect status statusText body toStr txId getReceipt = .error fundsMsg)
    ∧ (400 ≤ status → status ≠ 402 →
      uploadTransactionDirect status statusText body toStr txId getReceipt =
        .error ("whilst uploading Irys transaction: " ++ toString status ++ " " ++ statusText))
    ∧ (status = 201 → getReceipt = false →
      uploadTransactionDirect status statusText body toStr txId getReceipt =
        .ok ⟨.fresh txId, false⟩) := by
  refine ⟨?_, ?_, ?_⟩
  · intro h
    subst h
    simp [uploadTransactionDirect]
  · intro h400 h402
    have h201 : (status == 201) = false := by
      simp only [beq_eq_false_iff_ne, ne_eq]
      omega
    have h402b : (status == 402) = false := by
      simp only [beq_eq_false_iff_ne, ne_eq]
      omega
    simp [uploadTransactionDirect, h201, h402b, h400]
  · intro h201 hnor
    subst h201 hnor
    simp [uploadTransactionDirect]

/-- Witness for C6 at concrete statuses 402, 404 and 201. -/
theorem uploadTransaction_statusClassification_witness :
    uploadTransactionDirect 402 "Payment Required" "b" (fun s => s) "tx" false = .error fundsMsg
    ∧ uploadTransactionDirect 404 "Not Found" "b" (fun s => s) "tx" false =
      .error ("whilst uploading Irys transaction: " ++ toString 404 ++ " " ++ "Not Found")
    ∧ uploadTransactionDirect 201 "Created" "b" (fun s => s) "tx" false = .ok ⟨.fresh "tx", false⟩ :=
  ⟨(uploadTransaction_statusClassification 402 "Payment Required" "b" (fun s => s) "tx" false).1 rfl,
   (uploadTransaction_statusClassification 404 "Not Found" "b" (fun s => s) "tx" false).2.1
     (by omega) (by omega),
   (uploadTransaction_statusClassification 201 "Created" "b" (fun s => s) "tx" false).2.2 rfl rfl⟩

/-- Counterexample for claim C2: a direct-path call with
`getReceiptSignature: true` that receives status 201 does NOT succeed with
the body as receipt — `uploadTransaction` throws, using the body as the error
message. -/
theorem uploadTransaction_receipt201_cex :
    uploadTransactionDirect 201 "Created" "server-message" (fun s => s) "tx-1" true =
      .error "server-message"
    ∧ ¬∃ r, uploadTransactionDirect 201 "Created" "server-message" (fun s => s) "tx-1" true =
      .ok r := by
  refine ⟨rfl, ?_⟩
  rintro ⟨r, hr⟩
  simp [uploadTransactionDirect] at hr

/-- Claim C2 (amended): on the direct path with a receipt requested, status
201 always throws an error whose message is the server body (the source's
`throw new Error(res.data as any as string)`); the server body is returned
as the receipt with the `verify()` capability attached only for a non-201
success status (status < 400, e.g. 200). -/
theorem uploadTransaction_receipt201 {β : Type} (status : Nat) (statusText : String)
    (body : β) (toStr : β → String) (txId : String) :
    (status = 201 →
      uploadTransactionDirect status statusText body toStr txId true = .error (toStr body))
    ∧ (status ≠ 201 → status < 400 →
      uploadTransactionDirect status statusText body toStr txId true = .ok ⟨.raw body, true⟩) := by
  constructor
  · intro h
    subst h
    simp [uploadTransactionDirect]
  · intro h201 h400
    have h201b : (status == 201) = false := by
      simp only [beq_eq_false_iff_ne, ne_eq]
      omega
    have h402b : (status == 402) = false := by
      simp only [beq_eq_false_iff_ne, ne_eq]
      omega
    have hd : decide (400 ≤ status) = false := by
      simp
      omega
    simp [uploadTransactionDirect, h201b, h402b, hd]

/-- Witness for C2 (amended) at statuses 201 and 200. -/
theorem uploadTransaction_receipt201_witness :
    uploadTransactionDirect 201 "Created" "r" (fun s => s) "tx" true = .error "r"
    ∧ uploadTransactionDirect 200 "OK" "r" (fun s => s) "tx" true = .ok ⟨.raw "r", true⟩ :=
  ⟨(uploadTransaction_receipt201 201 "Created" "r" (fun s => s) "tx").1 rfl,
   (uploadTransaction_receipt201 200 "OK" "r" (fun s => s) "tx").2 (by omega) (by omega)⟩

/-! ### Header-object lemmas for C3 -/

theorem getHeader_cons (p : String × String) (rest : List (String × String)) (k2 : String) :
    getHeader (p :: rest) k2 = if p.1 == k2 then some p.2 else getHeader rest k2 := by
  unfold getHeader
  cases hp : p.1 == k2 with
  | true => simp [List.find?, hp]
  | false => simp [List.find?, hp]

theorem getHeader_map_overwrite (hs : List (String × String)) (k v k2 : String)
    (h : (k == k2) = false) :
    getHeader (hs.map (fun p => if p.1 == k then (k, v) else p)) k2 = getHeader hs k2 := by
  induction hs with
  | nil => rfl
  | cons p rest ih =>
    simp only [List.map_cons, getHeader_cons]
    by_cases hpk : (p.1 == k) = true
    · have hp2 : (p.1 == k2) = false := by rw [eq_of_beq hpk]; exact h
      rw [if_pos hpk]
      simp only [hp2, h, Bool.false_eq_true, if_false]
      exact ih
    · rw [if_neg hpk]
      rw [ih]

theorem getHeader_append_single (hs : List (String × String)) (k v k2 : String)
    (h : (k == k2) = false) :
    getHeader (hs ++ [(k, v)]) k2 = getHeader hs k2 := by
  induction hs with
  | nil => simp [getHeader, List.find?, h]
  | cons p rest ih =>
    cases hp : p.1 == k2 with
    | true => simp [getHeader, List.find?, hp]
    | false => simp [getHeader, List.find?, hp] at ih ⊢; exact ih

theorem getHeader_setHeader_ne (hs : List (String × String)) (k v k2 : String)
    (h : (k == k2) = false) :
    getHeader (setHeader hs k v) k2 = getHeader hs k2 := by
  unfold setHeader
  by_cases hany : (hs.any fun p => p.1 == k) = true
  · simp only [hany, if_true]
    exact getHeader_map_overwrite hs k v k2 h
  · simp only [Bool.not_eq_true] at hany
    simp only [hany, Bool.false_eq_true, if_false]
    exact getHeader_append_single hs k v k2 h

theorem getHeader_map_overwrite_self (hs : List (String × String)) (k v : String)
    (hany : (hs.any fun p => p.1 == k) = true) :
    getHeader (hs.map (fun p => if p.1 == k then (k, v) else p)) k = some v := by
  induction hs with
  | nil => cases hany
  | cons p rest ih =>
    cases hpk : p.1 == k with
    | true => simp [getHeader, List.find?, hpk]
    | false =>
      have hrest : (rest.any fun p => p.1 == k) = true := by simpa [hpk] using hany
      simpa [getHeader, List.find?, hpk] using ih hrest

theorem getHeader_append_self (hs : List (String × String)) (k v : String)
    (hany : (hs.any fun p => p.1 == k) = false) :
    getHeader (hs ++ [(k, v)]) k = some v := by
  induction hs with
  | nil => simp [getHeader, List.find?]
  | cons p rest ih =>
    have hpk : (p.1 == k) = false := by
      cases hx : p.1 == k with
      | false => rfl
      | true => simp [hx] at hany
    have hrest : (rest.any fun p => p.1 == k) = false := by simpa [hpk] using hany
    simpa [getHeader, List.find?, hpk] using ih hrest

theorem getHeader_setHeader_self (hs : List (String × String)) (k v : String) :
    getHeader (setHeader hs k v) k = some v := by
  unfold setHeader
  by_cases hany : (hs.any fun p => p.1 == k) = true
  · simp only [hany, if_true]
    exact getHeader_map_overwrite_self hs k v hany
  · simp only [Bool.not_eq_true] at hany
    simp only [hany, Bool.false_eq_true, if_false]
    exact getHeader_append_self hs k v hany

theorem getHeader_spreadHeaders (conf : List (String × String)) :
    ∀ (base : List (String × String)) (k : String), getHeader conf k = none →
      getHeader (spreadHeaders base conf) k = getHeader base k := by
  induction conf with
  | nil => intro base k _; rfl
  | cons q rest ih =>
    intro base k h
    cases hq : q.1 == k with
    | true => simp [getHeader, List.find?, hq] at h
    | false =>
      have hrest : getHeader rest k = none := by simpa [getHeader, List.find?, hq] using h
      show getHeader (spreadHeaders (setHeader base q.1 q.2) rest) k = getHeader base k
      rw [ih _ k hrest, getHeader_setHeader_ne _ _ _ _ hq]

/-- Claim C3: `uploadTransaction` routes through the chunked collaborator
exactly when chunking is forced, or the payload is not a pre-built signed
`DataItem`, or its raw size is at least 50,000,000 bytes; otherwise it
performs exactly one direct POST of the raw item bytes whose headers carry
`Content-Type: application/octet-stream` and, exactly when a signed receipt
was requested, `x-proof-type: receipt` (the configured headers are assumed
not to define those two keys themselves, since the object spread would let
them override). -/
theorem uploadTransaction_routing (force : Bool) (cfg : ApiConfig) (currency : String)
    (t : TxPayload) (getReceipt : Bool)
    (hct : getHeader cfg.headers "Content-Type" = none)
    (hpt : getHeader cfg.headers "x-proof-type" = none) :
    (usesChunkedPath force t = true ↔
      (force = true ∨ isDataItemB t = false ∨ CHUNKING_THRESHOLD ≤ rawLength t))
    ∧ (usesChunkedPath force t = true →
        uploadTransactionPosts force cfg currency t getReceipt = [])
    ∧ (usesChunkedPath force t = false →
        ∃ p, uploadTransactionPosts force cfg currency t getReceipt = [p]
          ∧ p.body = rawOf t
          ∧ getHeader p.headers "Content-Type" = some "application/octet-stream"
          ∧ getHeader p.headers "x-proof-type" =
              (if getReceipt then some "receipt" else none)) := by
  have hctHdr : getHeader (mkDirectHeaders cfg.headers getReceipt) "Content-Type" =
      some "application/octet-stream" := by
    unfold mkDirectHeaders
    cases getReceipt with
    | false =>
      simp only [Bool.false_eq_true, if_false]
      rw [getHeader_spreadHeaders _ _ _ hct]
      simp [getHeader, List.find?]
    | true =>
      simp only [if_true]
      rw [getHeader_setHeader_ne _ _ _ _ (by decide)]
      rw [getHeader_spreadHeaders _ _ _ hct]
      simp [getHeader, List.find?]
  have hptHdr : getHeader (mkDirectHeaders cfg.headers getReceipt) "x-proof-type" =
      (if getReceipt then some "receipt" else none) := by
    unfold mkDirectHeaders
    cases getReceipt with
    | false =>
      simp only [Bool.false_eq_true, if_false]
      rw [getHeader_spreadHeaders _ _ _ hpt]
      simp [getHeader, List.find?]
    | true =>
      simp only [if_true]
      exact getHeader_setHeader_self _ _ _
  refine ⟨?_, ?_, ?_⟩
  · cases force <;> cases t <;> simp [usesChunkedPath, isDataItemB, rawLength]
  · intro h
    simp [uploadTransactionPosts, h]
  · intro h
    refine ⟨⟨txEndpointUrl cfg currency, rawOf t, mkDirectHeaders cfg.headers getReceipt⟩,
      ?_, rfl, hctHdr, hptHdr⟩
    simp [uploadTransactionPosts, h]

/-- Witness for C3: a pre-built item below the threshold, no forced chunking,
empty configured headers, receipt requested. -/
theorem uploadTransaction_routing_witness :
    (usesChunkedPath false (.dataItem [1, 2, 3] "id") = true ↔
      (false = true ∨ isDataItemB (.dataItem [1, 2, 3] "id") = false ∨
        CHUNKING_THRESHOLD ≤ rawLength (.dataItem [1, 2, 3] "id")))
    ∧ (usesChunkedPath false (.dataItem [1, 2, 3] "id") = true →
        uploadTransactionPosts false ⟨"https", "node1.irys.xyz", 443, []⟩ "matic"
          (.dataItem [1, 2, 3] "id") true = [])
    ∧ (usesChunkedPath false (.dataItem [1, 2, 3] "id") = false →
        ∃ p, uploadTransactionPosts false ⟨"https", "node1.irys.xyz", 443, []⟩ "matic"
            (.dataItem [1, 2, 3] "id") true = [p]
          ∧ p.body = rawOf (.dataItem [1, 2, 3] "id")
          ∧ getHeader p.headers "Content-Type" = some "application/octet-stream"
          ∧ getHeader p.headers "x-proof-type" = (if true then some "receipt" else none)) :=
  uploadTransaction_routing false ⟨"https", "node1.irys.xyz", 443, []⟩ "matic"
    (.dataItem [1, 2, 3] "id") true rfl rfl

/-! ### base64url lemmas for C7 -/

theorem toSextets_lt : ∀ (l : List Nat), (∀ x ∈ l, x < 256) → ∀ s ∈ toSextets l, s < 64
  | [], _ => by simp [toSextets]
  | [a], h => by
    have ha : a < 256 := h a (by simp)
    intro s hs
    simp [toSextets] at hs
    rcases hs with rfl | rfl <;> omega
  | [a, b], h => by
    have ha : a < 256 := h a (by simp)
    have hb : b < 256 := h b (by simp)
    intro s hs
    simp [toSextets] at hs
    rcases hs with rfl | rfl | rfl <;> omega
  | a :: b :: c :: rest, h => by
    have ha : a < 256 := h a (by simp)
    have hb : b < 256 := h b (by simp)
    have hc : c < 256 := h c (by simp)
    have ih := toSextets_lt rest (fun x hx => h x (by simp [hx]))
    intro s hs
    simp only [toSextets, List.mem_cons] at hs
    rcases hs with rfl | rfl | rfl | rfl | hmem
    · omega
    · omega
    · omega
    · omega
    · exact ih s hmem

theorem fromSextets_toSextets : ∀ (l : List Nat), (∀ x ∈ l, x < 256) →
    fromSextets (toSextets l) = l
  | [], _ => rfl
  | [a], h => by
    have ha : a < 256 := h a (by simp)
    simp [toSextets, fromSextets]
    omega
  | [a, b], h => by
    have ha : a < 256 := h a (by simp)
    have hb : b < 256 := h b (by simp)
    simp [toSextets, fromSextets]
    omega
  | a :: b :: c :: rest, h => by
    have ha : a < 256 := h a (by simp)
    have hb : b < 256 := h b (by simp)
    have hc : c < 256 := h c (by simp)
    have ih := fromSextets_toSextets rest (fun x hx => h x (by simp [hx]))
    simp [toSextets, fromSextets, ih]
    omega

theorem b64CharVal_b64Char : ∀ i : Fin 64, b64CharVal (b64Char i.val) = i.val := by decide

theorem map_b64_roundtrip (xs : List Nat) (h : ∀ s ∈ xs, s < 64) :
    (xs.map b64Char).map b64CharVal = xs := by
  induction xs with
  | nil => rfl
  | cons x rest ih =>
    have hx : x < 64 := h x (by simp)
    have hv : b64CharVal (b64Char x) = x := b64CharVal_b64Char ⟨x, hx⟩
    simp only [List.map_cons, hv]
    rw [ih (fun s hs => h s (by simp [hs]))]

theorem base64url_roundtrip (l : List Nat) (h : ∀ x ∈ l, x < 256) :
    base64urlToBuffer (base64urlEncode l) = l := by
  unfold base64urlEncode base64urlToBuffer
  rw [show (String.mk ((toSextets l).map b64Char)).toList = (toSextets l).map b64Char from rfl]
  rw [map_b64_roundtrip _ (toSextets_lt l h)]
  exact fromSextets_toSextets l h

/-- Claim C7: the `ephemeralAddress` returned by `uploadMany` is the
base64url encoding of the digest of the base64url decoding of the base64url
encoding of the ephemeral public key — that is, the encoded digest of the
public key bytes themselves — and it is a pure function of the public key,
independent of the upload result and of the bundle ids. -/
theorem uploadMany_ephemeralAddress {R : Type} (hash : List Nat → List Nat)
    (publicKey : List Nat) (h : ∀ x ∈ publicKey, x < 256) :
    ephemeralAddress hash publicKey = base64urlEncode (hash publicKey)
    ∧ ∀ (r1 r2 : R) (ids1 ids2 : List String),
        (uploadManyModel hash publicKey ids1 r1).ephemeralAddress =
          (uploadManyModel hash publicKey ids2 r2).ephemeralAddress := by
  have key : ephemeralAddress hash publicKey = base64urlEncode (hash publicKey) := by
    unfold ephemeralAddress
    rw [base64url_roundtrip publicKey h]
  exact ⟨key, fun _ _ _ _ => rfl⟩

/-- Witness for C7 at a concrete public key and the identity digest. -/
theorem uploadMany_ephemeralAddress_witness :
    ephemeralAddress (fun l => l) [0, 1, 255] = base64urlEncode ((fun l => l) [0, 1, 255])
    ∧ ∀ (r1 r2 : Nat) (ids1 ids2 : List String),
        (uploadManyModel (fun l => l) [0, 1, 255] ids1 r1).ephemeralAddress =
          (uploadManyModel (fun l => l) [0, 1, 255] ids2 r2).ephemeralAddress :=
  uploadMany_ephemeralAddress (fun l => l) [0, 1, 255] (by decide)

/-! ### Retry/scheduler lemmas for C1, C4, C5 -/

theorem schedTaskFn_error {α R β : Type} (rp : ItemOutcome α R → β) (it : SchedItem α R)
    (i k : Nat) (e : String) (h : it.beh k = .error e) : schedTaskFn rp it i k = .error e := by
  simp [schedTaskFn, h, Except.map]

theorem schedTaskFn_ok {α R β : Type} (rp : ItemOutcome α R → β) (it : SchedItem α R)
    (i k : Nat) (r : R) (h : it.beh k = .ok r) :
    schedTaskFn rp it i k = .ok (rp ⟨it.val, r, i⟩) := by
  simp [schedTaskFn, h, Except.map]

theorem retryGo_ok {V : Type} (f : Nat → Except String V) (left n : Nat) (acc : List String)
    (v : V) (hv : f n = .ok v) : retryGo f left n acc = (.ok v, n + 1) := by
  cases left <;> simp [retryGo, hv]

theorem retryGo_fatalNow {V : Type} (f : Nat → Except String V) (left n : Nat)
    (acc : List String) (hv : f n = .error fundsMsg) :
    retryGo f left n acc = (.error fundsMsg, n + 1) := by
  cases left <;> simp [retryGo, hv]

theorem retryGo_fatal {V : Type} (f : Nat → Except String V) :
    ∀ (j left n : Nat) (acc : List String), j ≤ left →
      (∀ k, k < j → ∃ e, f (n + k) = .error e ∧ (e == fundsMsg) = false) →
      f (n + j) = .error fundsMsg →
      retryGo f left n acc = (.error fundsMsg, n + j + 1) := by
  intro j
  induction j with
  | zero =>
    intro left n acc _ _ hfat
    rw [Nat.add_zero] at hfat
    rw [retryGo_fatalNow f left n acc hfat]
  | succ j' ih =>
    intro left n acc hle hflop hfat
    obtain ⟨e, he1, he2⟩ := hflop 0 (by omega)
    rw [Nat.add_zero] at he1
    cases left with
    | zero => omega
    | succ l =>
      have hstep : retryGo f (l + 1) n acc = retryGo f l (n + 1) (acc ++ [e]) := by
        simp [retryGo, he1, he2]
      rw [hstep]
      rw [ih l (n + 1) (acc ++ [e]) (by omega)
        (fun k hk => by
          obtain ⟨e2, h1, h2⟩ := hflop (k + 1) (by omega)
          refine ⟨e2, ?_, h2⟩
          rw [show n + 1 + k = n + (k + 1) from by omega]
          exact h1)
        (by rw [show n + 1 + j' = n + (j' + 1) from by omega]; exact hfat)]
      simp only [Prod.mk.injEq]
      exact ⟨trivial, by omega⟩

theorem mainError_replicate4 (e : String) : mainError [e, e, e, e] = some e := by
  simp [mainError, mainErrorGo]

theorem retryGo_allFail {V : Type} (f : Nat → Except String V) (e : String)
    (he : (e == fundsMsg) = false) (hf : ∀ n, f n = .error e) :
    ∀ (left n : Nat) (acc : List String),
      retryGo f left n acc =
        (.error ((mainError (acc ++ List.replicate (left + 1) e)).getD e), n + left + 1) := by
  intro left
  induction left with
  | zero =>
    intro n acc
    simp [retryGo, hf n, he, List.replicate]
  | succ l ih =>
    intro n acc
    have hstep : retryGo f (l + 1) n acc = retryGo f l (n + 1) (acc ++ [e]) := by
      simp [retryGo, hf n, he]
    rw [hstep, ih (n + 1) (acc ++ [e])]
    have hlist : (acc ++ [e]) ++ List.replicate (l + 1) e = acc ++ List.replicate (l + 1 + 1) e := by
      simp [List.replicate_succ]
    rw [hlist]
    simp only [Prod.mk.injEq]
    exact ⟨trivial, by omega⟩

/-- The exhaustion behaviour of `retry` for a task that fails every attempt
with the same non-fatal error: 4 attempts, then rejection with that error
(node-retry's `mainError` of four identical messages). -/
theorem retryRun_allFail {V : Type} (f : Nat → Except String V) (e : String)
    (he : (e == fundsMsg) = false) (hf : ∀ n, f n = .error e) :
    retryRun f = (.error e, 4) := by
  unfold retryRun
  rw [retryGo_allFail f e he hf 3 0 []]
  simp [mainError_replicate4]

/-- Counterexample for claim C1: a batch whose first item fails with the
`InsufficientFunds` condition makes `concurrentUploader` reject with that
error instead of returning a `{errors, results}` object. -/
theorem concurrentUploader_fatal_cex :
    (concurrentUploaderModel (fun o : ItemOutcome String Nat => o)
        [⟨"x", fun _ => .error fundsMsg⟩, ⟨"y", fun _ => .ok 7⟩]).outcome = .error fundsMsg
    ∧ ¬∃ pair, (concurrentUploaderModel (fun o : ItemOutcome String Nat => o)
        [⟨"x", fun _ => .error fundsMsg⟩, ⟨"y", fun _ => .ok 7⟩]).outcome = .ok pair := by
  refine ⟨rfl, ?_⟩
  rintro ⟨pair, hp⟩
  have h1 : (concurrentUploaderModel (fun o : ItemOutcome String Nat => o)
      [⟨"x", fun _ => .error fundsMsg⟩, ⟨"y", fun _ => .ok 7⟩]).outcome = .error fundsMsg := rfl
  rw [h1] at hp
  cases hp

/-- Claim C1 (amended): when an item's attempt fails with the
`InsufficientFunds` condition (after any number of earlier non-fatal
failures of that item, and after any prefix of successful items), the item's
retry promise settles at that attempt without consuming the remaining
attempts (`j + 1 ≤ 4` attempts consumed), no further item is started, and
`concurrentUploader` rejects with that error — the locally recorded error
list is discarded, not returned. -/
theorem concurrentUploader_fatal_aborts {α R β : Type} (rp : ItemOutcome α R → β)
    (pre : List (SchedItem α R)) (it : SchedItem α R) (rest : List (SchedItem α R)) (j : Nat)
    (hpre : ∀ p ∈ pre, ∃ r, p.beh 0 = .ok r)
    (hj : j ≤ 3)
    (hflop : ∀ k, k < j → ∃ e, it.beh k = .error e ∧ (e == fundsMsg) = false)
    (hfat : it.beh j = .error fundsMsg) :
    concurrentUploaderModel rp (pre ++ it :: rest) =
      ⟨.error fundsMsg, pre.map (fun _ => 1) ++ [j + 1]⟩ := by
  unfold concurrentUploaderModel
  suffices hgen : ∀ (pre2 : List (SchedItem α R)) (i : Nat) (errs : List String)
      (ress : List Unit), (∀ p ∈ pre2, ∃ r, p.beh 0 = .ok r) →
      runSchedGo rp (pre2 ++ it :: rest) i errs ress =
        ⟨.error fundsMsg, pre2.map (fun _ => 1) ++ [j + 1]⟩ by
    exact hgen pre 0 [] [] hpre
  intro pre2
  induction pre2 with
  | nil =>
    intro i errs ress _
    have hret : retryRun (schedTaskFn rp it i) = (.error fundsMsg, j + 1) := by
      unfold retryRun
      have h0 := retryGo_fatal (schedTaskFn rp it i) j 3 0 [] hj
        (fun k hk => by
          obtain ⟨e, h1, h2⟩ := hflop k hk
          exact ⟨e, by rw [Nat.zero_add]; exact schedTaskFn_error rp it i k e h1, h2⟩)
        (by rw [Nat.zero_add]; exact schedTaskFn_error rp it i j fundsMsg hfat)
      rw [h0]
      simp
    simp [runSchedGo, hret]
  | cons p pre' ih =>
    intro i errs ress hpre2
    obtain ⟨r, hr⟩ := hpre2 p (by simp)
    have hretp : retryRun (schedTaskFn rp p i) = (.ok (rp ⟨p.val, r, i⟩), 1) := by
      unfold retryRun
      rw [retryGo_ok _ 3 0 [] _ (schedTaskFn_ok rp p i 0 r hr)]
    simp only [List.cons_append]
    rw [show runSchedGo rp (p :: (pre' ++ it :: rest)) i errs ress =
        ⟨(runSchedGo rp (pre' ++ it :: rest) (i + 1) errs (ress ++ [()])).outcome,
          1 :: (runSchedGo rp (pre' ++ it :: rest) (i + 1) errs (ress ++ [()])).attempts⟩
      from by simp [runSchedGo, hretp]]
    rw [ih (i + 1) errs (ress ++ [()]) (fun q hq => hpre2 q (by simp [hq]))]
    simp

/-- Witness for C1 (amended): a successful item, then an item that fails
fatally on its first attempt, then an item that would succeed but is never
started. -/
theorem concurrentUploader_fatal_aborts_witness :
    concurrentUploaderModel (fun o : ItemOutcome String Nat => o)
        [⟨"a", fun _ => .ok 1⟩, ⟨"b", fun _ => .error fundsMsg⟩, ⟨"c", fun _ => .ok 2⟩] =
      ⟨.error fundsMsg, [1, 1]⟩ := by
  have h := concurrentUploader_fatal_aborts (fun o : ItemOutcome String Nat => o)
    [⟨"a", fun _ => .ok 1⟩] ⟨"b", fun _ => .error fundsMsg⟩ [⟨"c", fun _ => .ok 2⟩] 0
    (by intro p hp; rw [List.mem_singleton] at hp; subst hp; exact ⟨1, rfl⟩)
    (by omega)
    (by intro k hk; exact absurd hk (Nat.not_lt_zero k))
    rfl
  simpa using h

/-- Evaluation theorem for claim C4 (a code bug): for a batch of one item
whose upload succeeds with result `7`, the value `{item, res, i}` is indeed
computed inside the retry operation, but the pool's recorded result is the
callback's `undefined` return value (`()`), because `.process`'s callback
never returns the awaited retry value — the returned result list carries no
item, result or index. -/
theorem concurrentUploader_resultDropped :
    concurrentUploaderModel (fun o : ItemOutcome String Nat => o) [⟨"a", fun _ => .ok 7⟩] =
      ⟨.ok ([], [()]), [1]⟩
    ∧ (retryRun (schedTaskFn (fun o : ItemOutcome String Nat => o) ⟨"a", fun _ => .ok 7⟩ 0)).1 =
      .ok ⟨"a", 7, 0⟩ :=
  ⟨rfl, rfl⟩

/-- Counterexample for claim C5: an item that always fails with the
non-fatal error `"boom"` is attempted 4 times, not 3 (`{retries: 3}` allows
3 retries after the first attempt). -/
theorem concurrentUploader_retry_cex :
    concurrentUploaderModel (fun o : ItemOutcome String Nat => o)
        [⟨"a", fun _ => .error "boom"⟩] = ⟨.ok (["boom"], []), [4]⟩
    ∧ (concurrentUploaderModel (fun o : ItemOutcome String Nat => o)
        [⟨"a", fun _ => .error "boom"⟩]).attempts ≠ [3] := by
  refine ⟨rfl, ?_⟩
  intro h
  have h4 : (concurrentUploaderModel (fun o : ItemOutcome String Nat => o)
      [⟨"a", fun _ => .error "boom"⟩]).attempts = [4] := rfl
  rw [h4] at h
  simp at h

/-- Claim C5 (amended): an item whose upload always fails with the same
non-fatal error is attempted exactly 4 times in total (the initial attempt
plus the 3 configured retries) before appearing exactly once in the returned
error list. -/
theorem concurrentUploader_retry_bound {α R β : Type} (rp : ItemOutcome α R → β)
    (v : α) (e : String) (beh : Nat → Except String R)
    (he : (e == fundsMsg) = false) (hb : ∀ n, beh n = .error e) :
    concurrentUploaderModel rp [⟨v, beh⟩] = ⟨.ok ([e], []), [4]⟩ := by
  have hret : retryRun (schedTaskFn rp ⟨v, beh⟩ 0) = (.error e, 4) :=
    retryRun_allFail _ e he (fun n => schedTaskFn_error rp ⟨v, beh⟩ 0 n e (hb n))
  simp [concurrentUploaderModel, runSchedGo, hret, he]

/-- Witness for C5 (amended) at a concrete always-failing item. -/
theorem concurrentUploader_retry_bound_witness :
    concurrentUploaderModel (fun o : ItemOutcome String Nat => o)
        [⟨"w", fun _ => .error "boom"⟩] = ⟨.ok (["boom"], []), [4]⟩ :=
  concurrentUploader_retry_bound (fun o : ItemOutcome String Nat => o) "w" "boom"
    (fun _ => .error "boom") (by decide) (fun _ => rfl)

end Irys
